import Mathlib

/-!
Shallow embedding of the Uri library (Uri.cpp, PercentEncodedCharacterDecoder.cpp,
NormalizeCaseInsensitiveString.cpp, CharacterSet.hpp/.cpp) in Lean 4.

Strings are modelled as `List Char` (byte-oriented text; every character produced
stays below 256).  Fallible parsing routines return `Option`.  Each definition is a
direct functional translation of the corresponding C++ routine, keeping the source
names.
-/

/-- Helper: the character list of a string literal. -/
def cs (s : String) : List Char := s.toList

/-! ## Character sets (CharacterSet.hpp instances defined in Uri.cpp) -/

/-- ALPHA: 'a'-'z' and 'A'-'Z'. -/
def ALPHA (c : Char) : Bool :=
  (('a' ≤ c) && (c ≤ 'z')) || (('A' ≤ c) && (c ≤ 'Z'))

/-- DIGIT: '0'-'9'. -/
def DIGIT (c : Char) : Bool :=
  ('0' ≤ c) && (c ≤ '9')

/-- HEXDIG: '0'-'9', 'A'-'F', 'a'-'f'. -/
def HEXDIG (c : Char) : Bool :=
  DIGIT c || (('A' ≤ c) && (c ≤ 'F')) || (('a' ≤ c) && (c ≤ 'f'))

/-- UNRESERVED: ALPHA / DIGIT / '-' / '.' / '_' / '~'. -/
def UNRESERVED (c : Char) : Bool :=
  ALPHA c || DIGIT c || (c = '-') || (c = '.') || (c = '_') || (c = '~')

/-- SUB_DELIMS: '!', '$', '&', the apostrophe (code 39), '(', ')', '*', '+', ',', ';', '='. -/
def SUB_DELIMS (c : Char) : Bool :=
  (c = '!') || (c = '$') || (c = '&') || (c = Char.ofNat 39) || (c = '(') || (c = ')') ||
  (c = '*') || (c = '+') || (c = ',') || (c = ';') || (c = '=')

/-- SCHEME_NOT_FIRST: ALPHA / DIGIT / '+' / '-' / '.'. -/
def SCHEME_NOT_FIRST (c : Char) : Bool :=
  ALPHA c || DIGIT c || (c = '+') || (c = '-') || (c = '.')

/-- PCHAR_NOT_PCT_ENCODED: UNRESERVED / SUB_DELIMS / ':' / '@'. -/
def PCHAR_NOT_PCT_ENCODED (c : Char) : Bool :=
  UNRESERVED c || SUB_DELIMS c || (c = ':') || (c = '@')

/-- QUERY_OR_FRAGMENT_NOT_PCT_ENCODED: PCHAR_NOT_PCT_ENCODED / '/' / '?'. -/
def QUERY_OR_FRAGMENT_NOT_PCT_ENCODED (c : Char) : Bool :=
  PCHAR_NOT_PCT_ENCODED c || (c = '/') || (c = '?')

/-- USER_INFO_NOT_PCT_ENCODED: UNRESERVED / SUB_DELIMS / ':'. -/
def USER_INFO_NOT_PCT_ENCODED (c : Char) : Bool :=
  UNRESERVED c || SUB_DELIMS c || (c = ':')

/-- REG_NAME_NOT_PCT_ENCODED: UNRESERVED / SUB_DELIMS. -/
def REG_NAME_NOT_PCT_ENCODED (c : Char) : Bool :=
  UNRESERVED c || SUB_DELIMS c

/-- IPV_FUTURE_LAST_PART: UNRESERVED / SUB_DELIMS / ':'. -/
def IPV_FUTURE_LAST_PART (c : Char) : Bool :=
  UNRESERVED c || SUB_DELIMS c || (c = ':')

/-! ## NormalizeCaseInsensitiveString.cpp -/

/-- `tolower` restricted to ASCII letters (identity elsewhere). -/
def toLowerChar (c : Char) : Char :=
  if ('A' ≤ c) && (c ≤ 'Z') then Char.ofNat (c.toNat + 32) else c

/-- NormalizeCaseInsensitiveString: lower-case every character. -/
def NormalizeCaseInsensitiveString (s : List Char) : List Char :=
  s.map toLowerChar

/-! ## PercentEncodedCharacterDecoder.cpp -/

/-- Decoder state: the partially decoded value and the state counter
(0 = no digit yet, 1 = one digit, 2 = done). -/
structure PecState where
  decodedCharacter : Nat
  decoderState : Nat
deriving DecidableEq, Repr

/-- Fresh decoder, as constructed by `PercentEncodedCharacterDecoder()`. -/
def pecInit : PecState := ⟨0, 0⟩

/-- The numeric value of one hex digit, if `c` is a hex digit. -/
def hexDigitValue (c : Char) : Option Nat :=
  if DIGIT c then some (c.toNat - 48)
  else if ('A' ≤ c) && (c ≤ 'F') then some (c.toNat - 65 + 10)
  else if ('a' ≤ c) && (c ≤ 'f') then some (c.toNat - 97 + 10)
  else none

/-- `NextEncodedCharacter`: feed one character; `none` models returning `false`.
In state 0 the digit becomes the high nibble, in state 1 the low nibble; any
further state ignores the character (the C++ `default: break`). -/
def NextEncodedCharacter (st : PecState) (c : Char) : Option PecState :=
  if st.decoderState = 0 then
    match hexDigitValue c with
    | some v => some ⟨v, 1⟩
    | none => none
  else if st.decoderState = 1 then
    match hexDigitValue c with
    | some v => some ⟨st.decodedCharacter * 16 + v, 2⟩
    | none => none
  else
    some st

/-- `Done`: both hex digits received. -/
def pecDone (st : PecState) : Bool := st.decoderState = 2

/-- `GetDecodedCharacter`. -/
def GetDecodedCharacter (st : PecState) : Char := Char.ofNat (st.decodedCharacter % 256)

/-! ## DecodeElement (anonymous namespace of Uri.cpp) -/

/-- The loop of `DecodeElement`: walks the element, decoding percent escapes and
passing through allowed characters.  Mirrors the C++ exactly: reaching the end of
input while still inside a percent escape returns the accumulated output
(silent truncation). -/
def decodeElementLoop (allowedCharacters : Char → Bool) :
    List Char → Bool → PecState → List Char → Option (List Char)
  | [], _, _, acc => some acc
  | c :: rest, decodingPec, pecDecoder, acc =>
    if decodingPec then
      match NextEncodedCharacter pecDecoder c with
      | none => none
      | some st =>
        if pecDone st then
          decodeElementLoop allowedCharacters rest false st (acc ++ [GetDecodedCharacter st])
        else
          decodeElementLoop allowedCharacters rest true st acc
    else if c = '%' then
      decodeElementLoop allowedCharacters rest true pecInit acc
    else if allowedCharacters c then
      decodeElementLoop allowedCharacters rest false pecDecoder (acc ++ [c])
    else
      none

/-- `DecodeElement(element, allowedCharacters)`: `some` of the decoded element on
success, `none` when an illegal character or bad escape digit is met. -/
def DecodeElement (element : List Char) (allowedCharacters : Char → Bool) :
    Option (List Char) :=
  decodeElementLoop allowedCharacters element false pecInit []

/-- `DecodeQueryOrFragment`. -/
def DecodeQueryOrFragment (queryOrFragment : List Char) : Option (List Char) :=
  DecodeElement queryOrFragment QUERY_OR_FRAGMENT_NOT_PCT_ENCODED

/-! ## ParseUint16 -/

/-- The digit loop of `ParseUint16` on a 32-bit accumulator.  The masked overflow
test `(n & ~0xFFFF) != 0` is written as `65536 ≤ n` (equivalent below `2 ^ 32`,
and the accumulator never exceeds `655359`). -/
def parseUint16Loop : List Char → Nat → Option Nat
  | [], n => some n
  | c :: rest, n =>
    if DIGIT c then
      let n := (n * 10 + (c.toNat - 48)) % 4294967296
      if 65536 ≤ n then none else parseUint16Loop rest n
    else
      none

/-- `ParseUint16`: parse a decimal string into a 16-bit value. -/
def ParseUint16 (numberString : List Char) : Option Nat :=
  parseUint16Loop numberString 0

/-! ## IPv4 validation -/

/-- The digit loop of `ValidateOctet`. -/
def validateOctetLoop : List Char → Nat → Option Nat
  | [], octet => some octet
  | c :: rest, octet =>
    if DIGIT c then validateOctetLoop rest (octet * 10 + (c.toNat - 48))
    else none

/-- `ValidateOctet`: all digits and value at most 255. -/
def ValidateOctet (octetString : List Char) : Bool :=
  match validateOctetLoop octetString 0 with
  | some octet => octet ≤ 255
  | none => false

/-- The state loop of `ValidateIpv4Adress` (source spelling kept): state 0 is
"not in an octet yet", state 1 is "expect a digit or dot"; carries the group
count and the current octet buffer. -/
def validateIpv4Loop : List Char → Nat → Nat → List Char → Option (Nat × List Char)
  | [], _, numGroups, octetBuffer => some (numGroups, octetBuffer)
  | c :: rest, state, numGroups, octetBuffer =>
    if state = 0 then
      if DIGIT c then validateIpv4Loop rest 1 numGroups (octetBuffer ++ [c])
      else none
    else
      if c = '.' then
        if numGroups ≥ 4 then none
        else if ValidateOctet octetBuffer then validateIpv4Loop rest 0 (numGroups + 1) []
        else none
      else if DIGIT c then validateIpv4Loop rest 1 numGroups (octetBuffer ++ [c])
      else none

/-- `ValidateIpv4Adress` (source spelling kept). -/
def ValidateIpv4Adress (address : List Char) : Bool :=
  match validateIpv4Loop address 0 0 [] with
  | none => false
  | some (numGroups, octetBuffer) =>
    if octetBuffer ≠ [] then
      if ValidateOctet octetBuffer then numGroups + 1 = 4 else false
    else
      numGroups = 4

/-! ## IPv6 validation -/

/-- The states of `ValidateIpv6Address`. -/
inductive V6State where
  | noGroupsYet
  | colonButNoGroupsYet
  | afterColonExpectGroupOrIpv4
  | inGroupNotIpv4
  | inGroupCouldBeIpv4
  | colonAfterGroup
deriving DecidableEq, Repr

/-- Mutable locals of the `ValidateIpv6Address` loop. -/
structure V6Rec where
  state : V6State
  numGroups : Nat
  numDigits : Nat
  doubleColonEncountered : Bool
  potentialIpv4AddressStart : Nat
  position : Nat
  ipv4AddressEncountered : Bool
deriving DecidableEq, Repr

/-- One iteration of the `ValidateIpv6Address` switch; `none` models
`return false`. -/
def v6step (r : V6Rec) (c : Char) : Option V6Rec :=
  match r.state with
  | V6State.noGroupsYet =>
    if c = ':' then some { r with state := V6State.colonButNoGroupsYet }
    else if DIGIT c then
      some { r with potentialIpv4AddressStart := r.position, numDigits := 1,
                    state := V6State.inGroupCouldBeIpv4 }
    else if HEXDIG c then
      some { r with numDigits := 1, state := V6State.inGroupNotIpv4 }
    else none
  | V6State.colonButNoGroupsYet =>
    if c = ':' then
      if r.doubleColonEncountered then none
      else some { r with doubleColonEncountered := true,
                         state := V6State.afterColonExpectGroupOrIpv4 }
    else some r
  | V6State.afterColonExpectGroupOrIpv4 =>
    if DIGIT c then
      if r.numDigits + 1 > 4 then none
      else some { r with potentialIpv4AddressStart := r.position,
                         numDigits := r.numDigits + 1,
                         state := V6State.inGroupCouldBeIpv4 }
    else if HEXDIG c then
      if r.numDigits + 1 > 4 then none
      else some { r with numDigits := r.numDigits + 1, state := V6State.inGroupNotIpv4 }
    else none
  | V6State.inGroupNotIpv4 =>
    if c = ':' then
      some { r with numDigits := 0, numGroups := r.numGroups + 1,
                    state := V6State.colonAfterGroup }
    else if HEXDIG c then
      if r.numDigits + 1 > 4 then none else some { r with numDigits := r.numDigits + 1 }
    else none
  | V6State.inGroupCouldBeIpv4 =>
    if c = ':' then
      some { r with numDigits := 0, numGroups := r.numGroups + 1,
                    state := V6State.afterColonExpectGroupOrIpv4 }
    else if c = '.' then some { r with ipv4AddressEncountered := true }
    else if DIGIT c then
      if r.numDigits + 1 > 4 then none else some { r with numDigits := r.numDigits + 1 }
    else if HEXDIG c then
      if r.numDigits + 1 > 4 then none
      else some { r with numDigits := r.numDigits + 1, state := V6State.inGroupNotIpv4 }
    else none
  | V6State.colonAfterGroup =>
    if c = ':' then
      if r.doubleColonEncountered then none
      else some { r with doubleColonEncountered := true,
                         state := V6State.afterColonExpectGroupOrIpv4 }
    else if DIGIT c then
      if r.numDigits + 1 > 4 then none
      else some { r with potentialIpv4AddressStart := r.position,
                         numDigits := r.numDigits + 1,
                         state := V6State.inGroupCouldBeIpv4 }
    else if HEXDIG c then
      if r.numDigits + 1 > 4 then none
      else some { r with numDigits := r.numDigits + 1, state := V6State.inGroupNotIpv4 }
    else none

/-- The `ValidateIpv6Address` loop: after each character, breaks if the IPv4
flag was set (before incrementing `position`), otherwise increments `position`
and continues. -/
def v6loop : List Char → V6Rec → Option V6Rec
  | [], r => some r
  | c :: rest, r =>
    match v6step r c with
    | none => none
    | some r' =>
      if r'.ipv4AddressEncountered then some r'
      else v6loop rest { r' with position := r'.position + 1 }

/-- `ValidateIpv6Address`. -/
def ValidateIpv6Address (address : List Char) : Bool :=
  match v6loop address ⟨V6State.noGroupsYet, 0, 0, false, 0, 0, false⟩ with
  | none => false
  | some r =>
    let numGroups :=
      if r.state = V6State.inGroupNotIpv4 ∨ r.state = V6State.inGroupCouldBeIpv4 then
        r.numGroups + 1
      else r.numGroups
    if r.position = address.length ∧
        (r.state = V6State.colonButNoGroupsYet ∨
         r.state = V6State.afterColonExpectGroupOrIpv4 ∨
         r.state = V6State.colonAfterGroup) then
      false
    else if r.ipv4AddressEncountered then
      if ValidateIpv4Adress (address.drop r.potentialIpv4AddressStart) then
        if r.doubleColonEncountered then numGroups + 2 ≤ 7 else numGroups + 2 = 8
      else false
    else
      if r.doubleColonEncountered then numGroups ≤ 7 else numGroups = 8

/-! ## Scheme checking (FailsMatch with LegalSchemeCheckStrategy) -/

/-- The strategy sequence: `schemePasses s isFirst` is true exactly when running
`LegalSchemeCheckStrategy`'s closure over `s` (with `isFirstCharacter` currently
`isFirst`) never fails and the final end-call passes. -/
def schemePasses : List Char → Bool → Bool
  | [], isFirstCharacter => !isFirstCharacter
  | c :: rest, isFirstCharacter =>
    if isFirstCharacter then
      if ALPHA c then schemePasses rest false else false
    else
      if SCHEME_NOT_FIRST c then schemePasses rest false else false

/-- `FailsMatch(candidate, LegalSchemeCheckStrategy())`. -/
def FailsMatch (candidate : List Char) : Bool :=
  !schemePasses candidate true

/-- `Uri::Impl::ParseScheme`: bound the colon search by the first '/', validate
and lower-case the scheme; returns the scheme (empty when absent) and the rest. -/
def ParseScheme (uriString : List Char) : Option (List Char × List Char) :=
  let beforeSlash := uriString.takeWhile (fun c => c ≠ '/')
  let schemePart := beforeSlash.takeWhile (fun c => c ≠ ':')
  if schemePart.length = beforeSlash.length then
    -- no ':' before the first '/': no scheme
    some ([], uriString)
  else
    if FailsMatch schemePart then none
    else some (NormalizeCaseInsensitiveString schemePart,
               uriString.drop (schemePart.length + 1))

/-! ## Host / port parsing state machine (Uri::Impl::ParseAuthority) -/

/-- The states of the host-and-port parsing machine. -/
inductive HostParsingState where
  | firstCharacter
  | notIpLiteral
  | percentEncodedCharacter
  | ipLiteral
  | ipv6Address
  | ipvFutureNumber
  | ipvFutureBody
  | garbageCheck
  | port
deriving DecidableEq, Repr

/-- Mutable locals of the host-and-port loop. -/
structure HostMachine where
  state : HostParsingState
  host : List Char
  portString : List Char
  pecDecoder : PecState
  hostIsRegName : Bool
deriving DecidableEq, Repr

/-- The NOT_IP_LITERAL case body (also reached by fall-through from
FIRST_CHARACTER). -/
def notIpLiteralStep (m : HostMachine) (c : Char) : Option HostMachine :=
  if c = '%' then
    some { m with pecDecoder := pecInit, state := HostParsingState.percentEncodedCharacter }
  else if c = ':' then
    some { m with state := HostParsingState.port }
  else if REG_NAME_NOT_PCT_ENCODED c then
    some { m with host := m.host ++ [c] }
  else none

/-- The IPV6_ADDRESS case body (also reached by fall-through from IP_LITERAL). -/
def ipv6AddressStep (m : HostMachine) (c : Char) : Option HostMachine :=
  if c = ']' then
    if ValidateIpv6Address m.host then
      some { m with state := HostParsingState.garbageCheck }
    else none
  else some { m with host := m.host ++ [c] }

/-- One iteration of the host-and-port switch; `none` models `return false`. -/
def hostStep (m : HostMachine) (c : Char) : Option HostMachine :=
  match m.state with
  | HostParsingState.firstCharacter =>
    if c = '[' then some { m with state := HostParsingState.ipLiteral }
    else
      -- fall-through into NOT_IP_LITERAL after marking the host as a reg-name
      notIpLiteralStep { m with state := HostParsingState.notIpLiteral, hostIsRegName := true } c
  | HostParsingState.notIpLiteral => notIpLiteralStep m c
  | HostParsingState.percentEncodedCharacter =>
    match NextEncodedCharacter m.pecDecoder c with
    | none => none
    | some st =>
      if pecDone st then
        some { m with state := HostParsingState.firstCharacter,
                      host := m.host ++ [GetDecodedCharacter st], pecDecoder := st }
      else some { m with pecDecoder := st }
  | HostParsingState.ipLiteral =>
    if c = 'v' then
      some { m with host := m.host ++ [c], state := HostParsingState.ipvFutureNumber }
    else
      -- fall-through into IPV6_ADDRESS
      ipv6AddressStep { m with state := HostParsingState.ipv6Address } c
  | HostParsingState.ipv6Address => ipv6AddressStep m c
  | HostParsingState.ipvFutureNumber =>
    if c = '.' then
      some { m with state := HostParsingState.ipvFutureBody, host := m.host ++ [c] }
    else if !HEXDIG c then none
    else some { m with host := m.host ++ [c] }
  | HostParsingState.ipvFutureBody =>
    if c = ']' then some { m with state := HostParsingState.garbageCheck }
    else if !IPV_FUTURE_LAST_PART c then none
    else some { m with host := m.host ++ [c] }
  | HostParsingState.garbageCheck =>
    if c = ':' then some { m with state := HostParsingState.port }
    else none
  | HostParsingState.port =>
    some { m with portString := m.portString ++ [c] }

/-- Run the host-and-port machine over the host-port substring. -/
def runHostMachine : HostMachine → List Char → Option HostMachine
  | m, [] => some m
  | m, c :: rest =>
    match hostStep m c with
    | none => none
    | some m' => runHostMachine m' rest

/-- Parse the host-port part of an authority (the part after any userinfo):
returns `(host, hasPort, port)`.  A port is present exactly when the port
substring was non-empty; otherwise the port value stays 0 (the value assigned
by `SplitAuthorityFromPathAndParseIt` on entry). -/
def parseHostPort (hostPortString : List Char) : Option (List Char × Bool × Nat) :=
  match runHostMachine
      ⟨HostParsingState.firstCharacter, [], [], pecInit, false⟩ hostPortString with
  | none => none
  | some m =>
    if m.state ≠ HostParsingState.firstCharacter ∧
        m.state ≠ HostParsingState.notIpLiteral ∧
        m.state ≠ HostParsingState.garbageCheck ∧
        m.state ≠ HostParsingState.port then
      none
    else
      let host := if m.hostIsRegName then NormalizeCaseInsensitiveString m.host else m.host
      if m.portString = [] then some (host, false, 0)
      else
        match ParseUint16 m.portString with
        | none => none
        | some port => some (host, true, port)

/-- `Uri::Impl::ParseAuthority`: split at the first '@' (std::string::find) into
userinfo and host-port, decode the userinfo, and run the host-port machine.
Returns `(userInfo, host, hasPort, port)`. -/
def ParseAuthority (authorityString : List Char) : Option (List Char × List Char × Bool × Nat) :=
  let beforeAt := authorityString.takeWhile (fun c => c ≠ '@')
  if beforeAt.length = authorityString.length then
    -- no '@': empty userinfo, whole string is host-port
    (parseHostPort authorityString).map (fun r => ([], r))
  else
    match DecodeElement beforeAt USER_INFO_NOT_PCT_ENCODED with
    | none => none
    | some userInfo =>
      (parseHostPort (authorityString.drop (beforeAt.length + 1))).map
        (fun r => (userInfo, r))

/-- `Uri::Impl::SplitAuthorityFromPathAndParseIt`: when the input starts with
"//", the authority runs to the next '/' (or the end) and is parsed; otherwise
authority components are cleared.  Returns the authority fields and the path
string.  (`port = 0` is assigned on entry in the source; the returned fields
already reflect the final values for a fresh parse.) -/
def SplitAuthorityFromPathAndParseIt (authorityAndPathString : List Char) :
    Option ((List Char × List Char × Bool × Nat) × List Char) :=
  match authorityAndPathString with
  | '/' :: '/' :: afterMarker =>
    let authorityString := afterMarker.takeWhile (fun c => c ≠ '/')
    let pathString := afterMarker.drop authorityString.length
    match ParseAuthority authorityString with
    | none => none
    | some auth => some (auth, pathString)
  | _ => some (([], [], false, 0), authorityAndPathString)

/-! ## Path parsing -/

/-- The splitting loop of `Uri::Impl::ParsePath`: split on '/' keeping empty
segments. -/
def splitPathSegments : List Char → List Char → List (List Char)
  | [], acc => [acc]
  | c :: rest, acc =>
    if c = '/' then acc :: splitPathSegments rest []
    else splitPathSegments rest (acc ++ [c])

/-- Decode every path segment with PCHAR_NOT_PCT_ENCODED. -/
def decodePathSegments : List (List Char) → Option (List (List Char))
  | [] => some []
  | seg :: rest =>
    match DecodeElement seg PCHAR_NOT_PCT_ENCODED with
    | none => none
    | some seg' =>
      match decodePathSegments rest with
      | none => none
      | some rest' => some (seg' :: rest')

/-- `Uri::Impl::ParsePath`: "/" becomes the single empty segment, the empty
string becomes the empty sequence, anything else is split on '/'; every segment
is then decoded. -/
def ParsePath (pathString : List Char) : Option (List (List Char)) :=
  let segments :=
    if pathString = ['/'] then [([] : List Char)]
    else if pathString = [] then []
    else splitPathSegments pathString []
  decodePathSegments segments

/-! ## Fragment and query -/

/-- `Uri::Impl::ParseFragment`: break off everything after the first '#' as the
fragment and decode it; returns `(hasFragment, fragment, rest)`. -/
def ParseFragment (queryAndOrFragment : List Char) :
    Option (Bool × List Char × List Char) :=
  let beforeHash := queryAndOrFragment.takeWhile (fun c => c ≠ '#')
  if beforeHash.length = queryAndOrFragment.length then
    match DecodeQueryOrFragment [] with
    | none => none
    | some fragment => some (false, fragment, queryAndOrFragment)
  else
    match DecodeQueryOrFragment (queryAndOrFragment.drop (beforeHash.length + 1)) with
    | none => none
    | some fragment => some (true, fragment, beforeHash)

/-- `Uri::Impl::ParseQuery`: a non-empty remainder means the query is present
(everything after the leading '?'); returns `(hasQuery, query)`. -/
def ParseQuery (queryWithDelimiter : List Char) : Option (Bool × List Char) :=
  let hasQuery := queryWithDelimiter ≠ []
  let query := if queryWithDelimiter ≠ [] then queryWithDelimiter.drop 1 else []
  match DecodeQueryOrFragment query with
  | none => none
  | some query => some (hasQuery, query)

/-! ## The Uri value (Uri::Impl fields) -/

/-- The parsed components of one URI (the fields of `Uri::Impl`). -/
structure Uri where
  scheme : List Char
  userInfo : List Char
  host : List Char
  hasPort : Bool
  port : Nat
  path : List (List Char)
  hasQuery : Bool
  query : List Char
  hasFragment : Bool
  fragment : List Char
deriving DecidableEq, Repr

/-- A freshly constructed Uri (all fields defaulted). -/
def emptyUri : Uri := ⟨[], [], [], false, 0, [], false, [], false, []⟩

/-- `Uri::Impl::HasAuthority`. -/
def HasAuthority (u : Uri) : Bool :=
  u.host ≠ [] || u.userInfo ≠ [] || u.hasPort

/-- `Uri::Impl::IsPathAbsolute` as a predicate on a path sequence. -/
def IsPathAbsolute (path : List (List Char)) : Bool :=
  path ≠ [] && path.headD [' '] = []

/-- `Uri::Impl::CanNavigatePathUpOneLevel` on a path sequence. -/
def CanNavigatePathUpOneLevel (path : List (List Char)) : Bool :=
  !IsPathAbsolute path || path.length > 1

/-- One iteration of the `NormalizePath` rebuild loop: the accumulator is the
path built so far plus the `atDirectoryLevel` flag. -/
def normStep (st : List (List Char) × Bool) (segment : List Char) :
    List (List Char) × Bool :=
  let path := st.1
  let atDirectoryLevel := st.2
  if segment = ['.'] then
    (path, true)
  else if segment = ['.', '.'] then
    (if path ≠ [] ∧ CanNavigatePathUpOneLevel path then path.dropLast else path, true)
  else
    (if ¬atDirectoryLevel ∨ segment ≠ [] then path ++ [segment] else path,
     segment = [])

/-- `Uri::Impl::NormalizePath` (RFC 3986 §5.2.4 remove_dot_segments). -/
def NormalizePath (oldPath : List (List Char)) : List (List Char) :=
  let st := oldPath.foldl normStep ([], false)
  if st.2 ∧ st.1 ≠ [] ∧ st.1.getLastD [] ≠ [] then st.1 ++ [[]] else st.1

/-- `Uri::Impl::SetDefaultPathIfAuthorityPresentAndPathEmpty`. -/
def SetDefaultPathIfAuthorityPresentAndPathEmpty (host : List Char)
    (path : List (List Char)) : List (List Char) :=
  if host ≠ [] ∧ path = [] then [[]] else path

/-! ## ParseFromString -/

/-- `Uri::ParseFromString`: scheme, then split the remainder at the first '?'
or '#', parse authority and path, default the path when an authority is
present, then fragment and query.  A fresh `Uri` is assembled from the parts
(the source overwrites the fields of a default-constructed `Impl`). -/
def ParseFromString (uriString : List Char) : Option Uri :=
  match ParseScheme uriString with
  | none => none
  | some (scheme, rest) =>
    let authorityAndPathString := rest.takeWhile (fun c => c ≠ '?' ∧ c ≠ '#')
    let queryAndOrFragment := rest.drop authorityAndPathString.length
    match SplitAuthorityFromPathAndParseIt authorityAndPathString with
    | none => none
    | some ((userInfo, host, hasPort, port), pathString) =>
      match ParsePath pathString with
      | none => none
      | some path0 =>
        let path := SetDefaultPathIfAuthorityPresentAndPathEmpty host path0
        match ParseFragment queryAndOrFragment with
        | none => none
        | some (hasFragment, fragment, rest2) =>
          match ParseQuery rest2 with
          | none => none
          | some (hasQuery, query) =>
            some ⟨scheme, userInfo, host, hasPort, port, path,
                  hasQuery, query, hasFragment, fragment⟩

/-! ## GenerateString -/

/-- Decimal rendering of the port (`buffer << port`). -/
def natToDecimal (n : Nat) : List Char := (Nat.repr n).toList

/-- The scheme, authority and path portion of `Uri::GenerateString` (everything
before the query and fragment parts). -/
def genSchemeAuthPath (u : Uri) : List Char :=
  (if u.scheme ≠ [] then u.scheme ++ [':'] else []) ++
  (if HasAuthority u then
    ['/', '/'] ++
    (if u.userInfo ≠ [] then u.userInfo ++ ['@'] else []) ++
    (if u.host ≠ [] then
      if ValidateIpv6Address u.host then '[' :: (u.host ++ [']']) else u.host
    else []) ++
    (if u.hasPort then ':' :: natToDecimal u.port else [])
  else []) ++
  (if IsPathAbsolute u.path ∧ u.path.length = 1 then ['/'] else []) ++
  (List.intercalate ['/'] u.path)

/-- `Uri::GenerateString`. -/
def GenerateString (u : Uri) : List Char :=
  genSchemeAuthPath u ++
  (if u.hasQuery then '?' :: u.query else []) ++
  (if u.hasFragment then '#' :: u.fragment else [])

/-! ## Equality (Uri::operator==) -/

/-- `Uri::operator==`: compares scheme, userInfo, host, the (hasPort, port)
pair, path, query and fragment.  The `hasQuery` / `hasFragment` flags are not
compared. -/
def uriEq (a b : Uri) : Bool :=
  (a.scheme = b.scheme) &&
  (a.userInfo = b.userInfo) &&
  (a.host = b.host) &&
  ((!a.hasPort && !b.hasPort) || (a.hasPort && b.hasPort && (a.port = b.port))) &&
  (a.path = b.path) &&
  (a.query = b.query) &&
  (a.fragment = b.fragment)

/-! ## Resolve (Uri::Resolve, RFC 3986 §5.2.2) -/

/-- `Uri::Resolve`: `base.Resolve relativeReference`, operating on a freshly
constructed target whose presence flags default to false (the Copy helpers copy
only the string values). -/
def Resolve (base relativeReference : Uri) : Uri :=
  let target :=
    if relativeReference.scheme ≠ [] then
      { emptyUri with
        scheme := relativeReference.scheme,
        host := relativeReference.host,
        userInfo := relativeReference.userInfo,
        hasPort := relativeReference.hasPort,
        port := relativeReference.port,
        path := NormalizePath relativeReference.path,
        query := relativeReference.query }
    else
      if relativeReference.host ≠ [] then
        { emptyUri with
          scheme := base.scheme,
          host := relativeReference.host,
          userInfo := relativeReference.userInfo,
          hasPort := relativeReference.hasPort,
          port := relativeReference.port,
          path := NormalizePath relativeReference.path,
          query := relativeReference.query }
      else
        if relativeReference.path = [] then
          { emptyUri with
            scheme := base.scheme,
            host := base.host,
            userInfo := base.userInfo,
            hasPort := base.hasPort,
            port := base.port,
            path := base.path,
            query := if relativeReference.query ≠ [] then relativeReference.query
                     else base.query }
        else
          if IsPathAbsolute relativeReference.path then
            { emptyUri with
              scheme := base.scheme,
              host := base.host,
              userInfo := base.userInfo,
              hasPort := base.hasPort,
              port := base.port,
              path := NormalizePath relativeReference.path,
              query := relativeReference.query }
          else
            -- merge: copy the base path, drop its last segment when it has
            -- more than one, append the reference path, then normalize
            let merged :=
              (if base.path.length > 1 then base.path.dropLast else base.path) ++
              relativeReference.path
            { emptyUri with
              scheme := base.scheme,
              host := base.host,
              userInfo := base.userInfo,
              hasPort := base.hasPort,
              port := base.port,
              path := NormalizePath merged,
              query := relativeReference.query }
  { target with fragment := relativeReference.fragment }

/-! ## Spec-side definitions

`ipv6GrammarSpec` and `specDecimalValue` restate claim wording (not source
code); they exist only to be compared against the source-derived definitions
above. -/

/-- Split a character list on a separator character, keeping empty pieces. -/
def splitOnCharAux (sep : Char) : List Char → List Char → List (List Char)
  | [], acc => [acc]
  | c :: rest, acc =>
    if c = sep then acc :: splitOnCharAux sep rest []
    else splitOnCharAux sep rest (acc ++ [c])

/-- Split a character list on a separator character. -/
def splitOnChar (sep : Char) (l : List Char) : List (List Char) :=
  splitOnCharAux sep l []

/-- The numeric value of a digit string (most significant digit first). -/
def specDecimalValue (s : List Char) : Nat :=
  s.foldl (fun a c => a * 10 + (c.toNat - 48)) 0

/-- Spec wording: a group of 1 to 4 hex digits. -/
def specHexGroup (g : List Char) : Bool :=
  1 ≤ g.length && g.length ≤ 4 && g.all HEXDIG

/-- Spec wording: one dotted-decimal octet, value 0 to 255. -/
def specIpv4Octet (g : List Char) : Bool :=
  g ≠ [] && g.all DIGIT && specDecimalValue g ≤ 255

/-- Spec wording: a dotted-decimal IPv4 tail of exactly 4 octets. -/
def specIpv4Tail (t : List Char) : Bool :=
  let octets := splitOnChar '.' t
  octets.length = 4 && octets.all specIpv4Octet

/-- Index of the first occurrence of two adjacent colons, if any. -/
def findDoubleColon : List Char → Option Nat
  | [] => none
  | [_] => none
  | a :: b :: t =>
    if a = ':' ∧ b = ':' then some 0
    else (findDoubleColon (b :: t)).map (· + 1)

/-- The ':'-separated group list of a (possibly empty) side of the elision. -/
def specGroupList (l : List Char) : List (List Char) :=
  if l = [] then [] else splitOnChar ':' l

/-- Count the groups of a group list whose last entry may be an IPv4 tail
(counting as two groups); `none` when some entry is neither a 1-4 digit hex
group nor (for the last entry) a valid IPv4 tail. -/
def specCountGroups (gs : List (List Char)) : Option Nat :=
  match gs.getLast? with
  | none => some 0
  | some last =>
    if gs.dropLast.all specHexGroup then
      if specHexGroup last then some gs.length
      else if specIpv4Tail last then some (gs.length + 1)
      else none
    else none

/-- Modelled from the spec: the IPv6 acceptance condition claimed for
`ValidateIpv6Address` — groups of 1-4 hex digits separated by ':', at most one
"::" elision, an optional valid dotted-decimal IPv4 tail counting as two
groups, and a total of exactly 8 groups without elision or at most 7 with it. -/
def ipv6GrammarSpec (address : List Char) : Bool :=
  match findDoubleColon address with
  | none =>
    match specCountGroups (specGroupList address) with
    | some n => n = 8
    | none => false
  | some i =>
    let left := address.take i
    let right := address.drop (i + 2)
    if findDoubleColon right ≠ none then false  -- a second "::" elision
    else
      let lgs := specGroupList left
      if !lgs.all specHexGroup then false
      else
        match specCountGroups (specGroupList right) with
        | some nr => lgs.length + nr ≤ 7
        | none => false

/-! ## Concrete URI values used by the claim theorems -/

/-- Parse of "%3F": the single path segment "?". -/
def uriOfPercent3F : Uri := ⟨[], [], [], false, 0, [['?']], false, [], false, []⟩

/-- Parse of "?": empty path, query present but empty. -/
def uriOfQuestionMark : Uri := ⟨[], [], [], false, 0, [], true, [], false, []⟩

/-- Parse of the RFC 3986 §5.4 base "http://a/b/c/d;p?q". -/
def uriBase541 : Uri :=
  ⟨cs (r"http"), [], ['a'], false, 0, [[], ['b'], ['c'], cs (r"d;p")], true, ['q'], false, []⟩

/-- Parse of the reference "g". -/
def uriRefG : Uri := ⟨[], [], [], false, 0, [['g']], false, [], false, []⟩

/-- Parse of the reference "../../g". -/
def uriRefDotDotG : Uri :=
  ⟨[], [], [], false, 0, [['.', '.'], ['.', '.'], ['g']], false, [], false, []⟩

/-- Parse of the reference "//g": authority host "g", defaulted path [""]. -/
def uriRefSlashSlashG : Uri := ⟨[], [], ['g'], false, 0, [[]], false, [], false, []⟩

/-- Parse of "http://h/p?bq". -/
def c5base : Uri :=
  ⟨cs (r"http"), [], ['h'], false, 0, [[], ['p']], true, cs (r"bq"), false, []⟩

/-- Parse of "?" again, used as the C5 reference (query present but empty). -/
def c5ref : Uri := ⟨[], [], [], false, 0, [], true, [], false, []⟩

/-! ## Helper predicates for the NormalizePath proofs -/

/-- The path sequence contains no "." or ".." segment. -/
def NoDots (l : List (List Char)) : Prop := ∀ s ∈ l, s ≠ ['.'] ∧ s ≠ ['.', '.']

/-- No two adjacent segments are both empty. -/
def NoAdjEmpty (l : List (List Char)) : Prop := l.Chain' (fun a b => a ≠ [] ∨ b ≠ [])

/-- The last segment (when one exists) is non-empty. -/
def LastNonempty (l : List (List Char)) : Prop := ∀ s, l.getLast? = some s → s ≠ []

/-- Invariant of the `NormalizePath` rebuild loop: the accumulated path has no
dot segments and no adjacent empty segments, and while the directory-level flag
is off the accumulated path does not end in an empty segment. -/
def NormInv (st : List (List Char) × Bool) : Prop :=
  NoDots st.1 ∧ NoAdjEmpty st.1 ∧ (st.2 = false → LastNonempty st.1)

/-- The value of the directory-level flag after folding `normStep` over a
dot-free list with no adjacent empty segments: unchanged for an empty list,
otherwise on exactly when the last segment is empty. -/
def normFoldFlag (O : List (List Char)) (d : Bool) : Bool :=
  match O.getLast? with
  | none => d
  | some s => decide (s = [])

/-! ## Claim theorems -/

/-- C1: round-trip failure.  "%3F" parses (to the single path segment "?"), but
`GenerateString` emits the decoded "?" without re-encoding it, and re-parsing
"?" yields a URI with an empty path and a present-but-empty query, which is not
`operator==`-equal to the original parse. -/
theorem c1_round_trip_failure :
    ParseFromString (cs (r"%3F")) = some uriOfPercent3F ∧
    GenerateString uriOfPercent3F = cs (r"?") ∧
    ParseFromString (cs (r"?")) = some uriOfQuestionMark ∧
    uriEq uriOfPercent3F uriOfQuestionMark = false := by
  decide

/-- C2 counterexample: for base "http://a/b/c/d;p?q" and reference "//g", the
resolved target's `GenerateString` output is "http://g/", not "http://g" as the
claim states (the reference's empty path is defaulted to [""], and generation
renders the absolute single-empty-segment path as "/"). -/
theorem c2_counterexample :
    ParseFromString (cs (r"http://a/b/c/d;p?q")) = some uriBase541 ∧
    ParseFromString (cs (r"//g")) = some uriRefSlashSlashG ∧
    GenerateString (Resolve uriBase541 uriRefSlashSlashG) = cs (r"http://g/") ∧
    cs (r"http://g/") ≠ cs (r"http://g") := by
  decide

/-- C2 amended: for the base "http://a/b/c/d;p?q", resolving "g" and "../../g"
generates exactly "http://a/b/c/g" and "http://a/g" as claimed, while resolving
"//g" generates "http://g/" (a trailing slash; the target is nevertheless
`operator==`-equal to the parse of "http://g"). -/
theorem c2_resolution_vectors :
    ParseFromString (cs (r"http://a/b/c/d;p?q")) = some uriBase541 ∧
    ParseFromString (cs (r"g")) = some uriRefG ∧
    ParseFromString (cs (r"../../g")) = some uriRefDotDotG ∧
    ParseFromString (cs (r"//g")) = some uriRefSlashSlashG ∧
    GenerateString (Resolve uriBase541 uriRefG) = cs (r"http://a/b/c/g") ∧
    GenerateString (Resolve uriBase541 uriRefDotDotG) = cs (r"http://a/g") ∧
    GenerateString (Resolve uriBase541 uriRefSlashSlashG) = cs (r"http://g/") ∧
    (ParseFromString (cs (r"http://g"))).map (fun u => uriEq (Resolve uriBase541 uriRefSlashSlashG) u) = some true := by
  decide

/-- C3 counterexample: the authority "u@[:@:1]" contains two (unescaped) '@'
characters; `ParseAuthority` splits at the FIRST one and succeeds with userinfo
"u" and host ":@:1" (the text ":@:1" passes `ValidateIpv6Address`), whereas the
claim's split at the LAST '@' would make the userinfo the undecodable text
"u@[:". -/
theorem c3_counterexample :
    ParseAuthority (cs (r"u@[:@:1]")) = some (['u'], [':', '@', ':', '1'], false, 0) ∧
    DecodeElement (cs (r"u@[:")) USER_INFO_NOT_PCT_ENCODED = none := by
  decide

/-- C4: a raw element ending in an incomplete percent escape does NOT make
element decoding fail: `DecodeElement` silently truncates, so "%4" decodes
successfully to the empty string, "abc%4" to "abc", and the URI "%4" parses
successfully. -/
theorem c4_dangling_percent_truncates :
    DecodeElement (cs (r"%4")) PCHAR_NOT_PCT_ENCODED = some [] ∧
    DecodeElement (cs (r"abc%4")) QUERY_OR_FRAGMENT_NOT_PCT_ENCODED = some (cs (r"abc")) ∧
    (ParseFromString (cs (r"%4"))).isSome = true := by
  decide

/-- C5 counterexample: base "http://h/p?bq" and reference "?" (no scheme, empty
host, empty path, query present but empty).  The claim says the target query is
the reference's (empty) query since `hasQuery` is true; the code instead tests
the query STRING for emptiness and copies the base's query "bq". -/
theorem c5_counterexample :
    ParseFromString (cs (r"http://h/p?bq")) = some c5base ∧
    ParseFromString (cs (r"?")) = some c5ref ∧
    c5ref.scheme = [] ∧ c5ref.host = [] ∧ c5ref.path = [] ∧
    c5ref.hasQuery = true ∧ c5ref.query = [] ∧
    (Resolve c5base c5ref).query = cs (r"bq") ∧
    (Resolve c5base c5ref).query ≠ c5ref.query := by
  decide

/-- C8: `ValidateIpv6Address` does not implement the claimed grammar: it
rejects the valid address "1::2" (a "::" directly after an all-digit group is
refused) and accepts ":@:1" (characters between a leading single ':' and the
next ':' are silently skipped), although the claim's concrete vectors do hold
("::1" accepted with host "::1"; 9 groups and a double "::" rejected). -/
theorem c8_ipv6_validator_diverges :
    ValidateIpv6Address (cs (r"1::2")) = false ∧
    ipv6GrammarSpec (cs (r"1::2")) = true ∧
    ParseFromString (cs (r"http://[1::2]/")) = none ∧
    ValidateIpv6Address (cs (r":@:1")) = true ∧
    ipv6GrammarSpec (cs (r":@:1")) = false ∧
    (ParseFromString (cs (r"http://[::1]/"))).map Uri.host = some (cs (r"::1")) ∧
    ParseFromString (cs (r"http://[2001:db8:85a3:8d3:1319:8a2e:370:7348:0000]/")) = none ∧
    ParseFromString (cs (r"http://[::ffff::1]/")) = none := by
  decide

/-- C9: `operator==` compares scheme, userInfo, host, the (hasPort, port) pair,
path, query and fragment, and nothing else — in particular the right-hand side
of this characterization never mentions `hasQuery` or `hasFragment`, so a URI
with an absent query and one with a present-but-empty query compare equal when
all compared fields match. -/
theorem c9_operator_eq_characterization (a b : Uri) :
    uriEq a b = true ↔
      (a.scheme = b.scheme ∧ a.userInfo = b.userInfo ∧ a.host = b.host ∧
       ((a.hasPort = false ∧ b.hasPort = false) ∨
        (a.hasPort = true ∧ b.hasPort = true ∧ a.port = b.port)) ∧
       a.path = b.path ∧ a.query = b.query ∧ a.fragment = b.fragment) := by
  unfold uriEq
  cases ha : a.hasPort <;> cases hb : b.hasPort <;> simp <;> tauto

/-- C10: `Resolve` builds its target from a freshly constructed URI and copies
only the query and fragment strings, never the presence flags, so the resolved
URI always has `hasQuery = false` and `hasFragment = false`, and its generated
string is exactly the scheme-authority-path portion (no '?' or '#' part is
emitted). -/
theorem c10_resolve_clears_presence_flags (base r : Uri) :
    (Resolve base r).hasQuery = false ∧ (Resolve base r).hasFragment = false ∧
    GenerateString (Resolve base r) = genSchemeAuthPath (Resolve base r) := by
  have h : (Resolve base r).hasQuery = false ∧ (Resolve base r).hasFragment = false := by
    unfold Resolve
    split <;> [skip; split <;> [skip; split <;> [skip; split]]] <;> simp [emptyUri]
  refine ⟨h.1, h.2, ?_⟩
  unfold GenerateString
  simp [h.1, h.2]

/-- C5 amended: for a reference with no scheme, empty host and empty path, the
resolved target's path is the base's path, and its query is the reference's
query when the reference's query STRING is non-empty and the base's query
otherwise (the source tests `query.empty()`, not the `hasQuery` flag). -/
theorem c5_resolve_query_by_string (b r : Uri) (h1 : r.scheme = []) (h2 : r.host = [])
    (h3 : r.path = []) :
    (Resolve b r).path = b.path ∧
    (Resolve b r).query = (if r.query = [] then b.query else r.query) := by
  unfold Resolve
  simp [h1, h2, h3]

/-- Witness for C5: the amended statement applied to the parse of
"http://h/p?bq" and the parse of "?". -/
theorem c5_resolve_query_by_string_witness :
    (Resolve c5base c5ref).path = c5base.path ∧
    (Resolve c5base c5ref).query = (if c5ref.query = [] then c5base.query else c5ref.query) :=
  c5_resolve_query_by_string c5base c5ref rfl rfl rfl

/-- `takeWhile (≠ '@')` of a list decomposed around its first '@'. -/
theorem takeWhile_until_at (pre post : List Char) (h : '@' ∉ pre) :
    (pre ++ '@' :: post).takeWhile (fun c => c ≠ '@') = pre := by
  induction pre with
  | nil => simp [List.takeWhile]
  | cons a t ih =>
    have ha : a ≠ '@' := by rintro rfl; exact h (List.mem_cons_self _ _)
    have ht : '@' ∉ t := fun hm => h (List.mem_cons_of_mem _ hm)
    simp [List.takeWhile_cons, ha]
    simpa using ih ht

/-- Dropping past the first '@' of such a decomposition. -/
theorem drop_past_at (pre post : List Char) :
    (pre ++ '@' :: post).drop (pre.length + 1) = post := by
  have he : pre ++ '@' :: post = (pre ++ ['@']) ++ post := by simp
  have hl : (pre ++ ['@']).length = pre.length + 1 := by simp
  rw [he, ← hl, List.drop_left]

/-- C3 amended: `ParseAuthority` splits at the FIRST '@' of the authority: for
an authority `pre ++ '@' :: post` with no '@' in `pre`, the userinfo is the
decode of `pre` and host/port parsing consumes exactly `post`. -/
theorem c3_split_at_first_at (pre post : List Char) (h : '@' ∉ pre) :
    ParseAuthority (pre ++ '@' :: post) =
      (match DecodeElement pre USER_INFO_NOT_PCT_ENCODED with
       | none => none
       | some userInfo => (parseHostPort post).map (fun r => (userInfo, r))) := by
  have hlen : ¬(pre.length = (pre ++ '@' :: post).length) := by simp
  unfold ParseAuthority
  rw [takeWhile_until_at pre post h]
  rw [if_neg hlen]
  rw [drop_past_at pre post]

/-- Witness for C3: the amended statement applied to the authority "u@h". -/
theorem c3_split_at_first_at_witness :
    ParseAuthority (['u'] ++ '@' :: ['h']) =
      (match DecodeElement ['u'] USER_INFO_NOT_PCT_ENCODED with
       | none => none
       | some userInfo => (parseHostPort ['h']).map (fun r => (userInfo, r))) :=
  c3_split_at_first_at ['u'] ['h'] (by decide)

/-- The decimal-fold value only grows as digits are consumed. -/
theorem foldDec_mono (s : List Char) (n : Nat) :
    n ≤ s.foldl (fun a c => a * 10 + (c.toNat - 48)) n := by
  induction s generalizing n with
  | nil => simp
  | cons c t ih => exact le_trans (by omega) (ih (n * 10 + (c.toNat - 48)))

/-- A DIGIT character has code between 48 and 57. -/
theorem digit_toNat_le (c : Char) (hc : DIGIT c = true) :
    48 ≤ c.toNat ∧ c.toNat ≤ 57 := by
  unfold DIGIT at hc
  rw [Bool.and_eq_true, decide_eq_true_eq, decide_eq_true_eq] at hc
  obtain ⟨h1, h2⟩ := hc
  rw [Char.le_def] at h1 h2
  exact ⟨h1, h2⟩

/-- The `ParseUint16` loop computes exactly the decimal value of an all-digit
string when that value fits in 16 bits, and fails otherwise. -/
theorem parseUint16Loop_spec (s : List Char) : ∀ n : Nat, n ≤ 65535 →
    parseUint16Loop s n =
      (if s.all DIGIT ∧ s.foldl (fun a c => a * 10 + (c.toNat - 48)) n ≤ 65535
       then some (s.foldl (fun a c => a * 10 + (c.toNat - 48)) n) else none) := by
  induction s with
  | nil => intro n hn; simp [parseUint16Loop, hn]
  | cons c t ih =>
    intro n hn
    by_cases hc : DIGIT c = true
    · have hd := digit_toNat_le c hc
      have hlt : n * 10 + (c.toNat - 48) < 4294967296 := by omega
      rw [parseUint16Loop]
      simp only [hc, if_true]
      rw [Nat.mod_eq_of_lt hlt]
      by_cases hbig : 65536 ≤ n * 10 + (c.toNat - 48)
      · rw [if_pos hbig, if_neg]
        rintro ⟨_, hle⟩
        have := foldDec_mono t (n * 10 + (c.toNat - 48))
        simp only [List.foldl_cons] at hle
        omega
      · rw [if_neg hbig, ih _ (by omega)]
        simp [List.all_cons, hc]
    · have hc' : DIGIT c = false := by simpa using hc
      rw [parseUint16Loop]
      simp [hc', List.all_cons]

/-- When `parseHostPort` reports no port, the port value is 0. -/
theorem parseHostPort_port_zero (s : List Char) (h : List Char) (hp : Bool) (p : Nat)
    (hr : parseHostPort s = some (h, hp, p)) (hfalse : hp = false) : p = 0 := by
  unfold parseHostPort at hr
  repeat' split at hr
  all_goals try exact Option.noConfusion hr
  all_goals simp only [] at hr
  all_goals simp only [Option.some.injEq, Prod.mk.injEq] at hr
  all_goals try exact hr.2.2.symm
  all_goals rw [← hr.2.1] at hfalse
  all_goals simp at hfalse

/-- When `ParseAuthority` reports no port, the port value is 0. -/
theorem parseAuthority_port_zero (s : List Char) (ui h : List Char) (hp : Bool) (p : Nat)
    (hr : ParseAuthority s = some (ui, h, hp, p)) (hfalse : hp = false) : p = 0 := by
  unfold ParseAuthority at hr
  simp only [] at hr
  split at hr
  · simp only [Option.map_eq_some'] at hr
    obtain ⟨⟨h1, hp1, p1⟩, hph, heq⟩ := hr
    simp only [Prod.mk.injEq] at heq
    obtain ⟨-, rfl, rfl, rfl⟩ := heq
    exact parseHostPort_port_zero _ _ _ _ hph hfalse
  · split at hr
    · exact Option.noConfusion hr
    · simp only [Option.map_eq_some'] at hr
      obtain ⟨⟨h1, hp1, p1⟩, hph, heq⟩ := hr
      simp only [Prod.mk.injEq] at heq
      obtain ⟨-, rfl, rfl, rfl⟩ := heq
      exact parseHostPort_port_zero _ _ _ _ hph hfalse

/-- When the authority-and-path split reports no port, the port value is 0
(`port = 0` is assigned on entry and never changed without `hasPort = true`). -/
theorem splitAuthority_port_zero (s : List Char) (ui h : List Char) (hp : Bool) (p : Nat)
    (ps : List Char)
    (hr : SplitAuthorityFromPathAndParseIt s = some ((ui, h, hp, p), ps))
    (hfalse : hp = false) : p = 0 := by
  unfold SplitAuthorityFromPathAndParseIt at hr
  split at hr
  · simp only [] at hr
    split at hr
    · exact Option.noConfusion hr
    · rename_i auth heq
      simp only [Option.some.injEq, Prod.mk.injEq] at hr
      rw [hr.1] at heq
      exact parseAuthority_port_zero _ _ _ _ _ heq hfalse
  · simp only [Option.some.injEq, Prod.mk.injEq] at hr
    exact hr.1.2.2.2.symm

/-- A successfully parsed URI without a port has port value 0. -/
theorem parseFromString_port_zero (s : List Char) (u : Uri)
    (hr : ParseFromString s = some u) (hfalse : u.hasPort = false) : u.port = 0 := by
  unfold ParseFromString at hr
  split at hr
  · exact Option.noConfusion hr
  · simp only [] at hr
    repeat' split at hr
    all_goals try exact Option.noConfusion hr
    all_goals simp only [Option.some.injEq] at hr
    all_goals rw [← hr] at hfalse ⊢
    all_goals exact splitAuthority_port_zero _ _ _ _ _ _ (by assumption) hfalse

/-- C7: `ParseUint16` accepts exactly the all-digit strings whose decimal value
fits in 16 bits (and then returns that value); "http://www.example.com:65536/foo",
":-1234" and ":spam" all fail to parse; ":8080" yields a present port 8080; a
parsed URI without a port has `hasPort = false` and port 0. -/
theorem c7_port_parsing :
    (∀ s : List Char, ParseUint16 s =
        (if s.all DIGIT ∧ specDecimalValue s ≤ 65535
         then some (specDecimalValue s) else none)) ∧
    ParseFromString (cs (r"http://www.example.com:65536/foo")) = none ∧
    ParseFromString (cs (r":-1234")) = none ∧
    ParseFromString (cs (r":spam")) = none ∧
    (ParseFromString (cs (r"http://www.example.com:8080/foo"))).map
      (fun u => (u.hasPort, u.port)) = some (true, 8080) ∧
    (ParseFromString (cs (r"http://www.example.com/foo"))).map
      (fun u => (u.hasPort, u.port)) = some (false, 0) ∧
    (∀ (s : List Char) (u : Uri), ParseFromString s = some u → u.hasPort = false →
      u.port = 0) := by
  refine ⟨?_, by decide, by decide, by decide, by decide, by decide,
    parseFromString_port_zero⟩
  intro s
  simpa [ParseUint16, specDecimalValue] using parseUint16Loop_spec s 0 (by omega)

/-- Witness for C7: the port characterization evaluated at "8080", and the
no-port clause applied to the parse of "?". -/
theorem c7_port_parsing_witness :
    ParseUint16 (cs (r"8080")) =
      (if (cs (r"8080")).all DIGIT ∧ specDecimalValue (cs (r"8080")) ≤ 65535
       then some (specDecimalValue (cs (r"8080"))) else none) ∧
    uriOfQuestionMark.port = 0 :=
  ⟨c7_port_parsing.1 (cs (r"8080")),
   c7_port_parsing.2.2.2.2.2.2 (cs (r"?")) uriOfQuestionMark (by decide) (by decide)⟩

/-- One `NormalizePath` loop iteration preserves the rebuild invariant. -/
theorem normStep_inv (st : List (List Char) × Bool) (seg : List Char)
    (h : NormInv st) : NormInv (normStep st seg) := by
  obtain ⟨hd, ha, hl⟩ := h
  unfold normStep
  by_cases h1 : seg = ['.']
  · simp only [h1, if_true]
    exact ⟨hd, ha, by simp⟩
  · rw [if_neg h1]
    by_cases h2 : seg = ['.', '.']
    · simp only [h2, if_true]
      refine ⟨?_, ?_, by simp⟩
      · split
        · intro s hs
          exact hd s (List.dropLast_subset _ hs)
        · exact hd
      · split
        · exact ha.init
        · exact ha
    · rw [if_neg h2]
      by_cases h3 : ¬st.2 = true ∨ seg ≠ []
      · rw [if_pos h3]
        refine ⟨?_, ?_, ?_⟩
        · intro s hs
          rcases List.mem_append.1 hs with hs | hs
          · exact hd s hs
          · simp only [List.mem_singleton] at hs
            exact hs ▸ ⟨h1, h2⟩
        · refine List.chain'_append.2 ⟨ha, List.chain'_singleton _, ?_⟩
          intro x hx y hy
          simp only [List.head?_cons, Option.mem_def, Option.some.injEq] at hy
          by_cases hseg : seg = []
          · rcases h3 with h3 | h3
            · left
              exact hl (by simpa using h3) x hx
            · exact absurd hseg h3
          · right
            rw [← hy]
            exact hseg
        · intro hflag s hs
          simp only [decide_eq_false_iff_not] at hflag
          rw [List.getLast?_concat] at hs
          injection hs with hs
          rw [← hs]
          exact hflag
      · rw [if_neg h3]
        push_neg at h3
        refine ⟨hd, ha, ?_⟩
        intro hflag
        rw [h3.2] at hflag
        simp at hflag

/-- The rebuild invariant holds after folding over any input path. -/
theorem normFold_inv (l : List (List Char)) :
    ∀ st, NormInv st → NormInv (l.foldl normStep st) := by
  induction l with
  | nil => intro st h; exact h
  | cons seg t ih =>
    intro st h
    exact ih _ (normStep_inv st seg h)

/-- The output of `NormalizePath` has no dot segments and no adjacent empty
segments. -/
theorem normalizePath_clean (p : List (List Char)) :
    NoDots (NormalizePath p) ∧ NoAdjEmpty (NormalizePath p) := by
  have hinv : NormInv (p.foldl normStep ([], false)) :=
    normFold_inv p ([], false) ⟨by simp [NoDots], List.chain'_nil, by simp [LastNonempty]⟩
  obtain ⟨hd, ha, -⟩ := hinv
  unfold NormalizePath
  simp only []
  split
  · rename_i hcond
    obtain ⟨-, hne, hlast⟩ := hcond
    constructor
    · intro s hs
      rcases List.mem_append.1 hs with hs | hs
      · exact hd s hs
      · simp only [List.mem_singleton] at hs
        subst hs
        exact ⟨by simp, by simp⟩
    · refine List.chain'_append.2 ⟨ha, List.chain'_singleton _, ?_⟩
      intro x hx y hy
      left
      rw [List.getLastD_eq_getLast?] at hlast
      rw [Option.mem_def] at hx
      rw [hx] at hlast
      simpa using hlast
  · exact ⟨hd, ha⟩

/-- Folding the rebuild loop over a list with no dot segments and no adjacent
empty segments appends it unchanged, leaving the directory-level flag on
exactly when the last appended segment is empty. -/
theorem normFold_clean (O : List (List Char)) :
    ∀ (acc : List (List Char)) (d : Bool), NoDots O → NoAdjEmpty O →
      (d = true → ∀ h, O.head? = some h → h ≠ []) →
      O.foldl normStep (acc, d) = (acc ++ O, normFoldFlag O d) := by
  induction O with
  | nil => intro acc d _ _ _; simp [normFoldFlag]
  | cons s t ih =>
    intro acc d hd ha hh
    have hs1 : s ≠ ['.'] := (hd s (List.mem_cons_self _ _)).1
    have hs2 : s ≠ ['.', '.'] := (hd s (List.mem_cons_self _ _)).2
    have hpush : normStep (acc, d) s = (acc ++ [s], decide (s = [])) := by
      unfold normStep
      rw [if_neg hs1, if_neg hs2, if_pos]
      by_cases hseg : s = []
      · left
        intro hdt
        exact hh hdt s rfl hseg
      · right; exact hseg
    have hcond : decide (s = []) = true → ∀ y, t.head? = some y → y ≠ [] := by
      intro hflag y hy
      rw [decide_eq_true_eq] at hflag
      have := (List.chain'_cons'.1 ha).1 y hy
      rcases this with h | h
      · exact absurd hflag h
      · exact h
    rw [List.foldl_cons, hpush]
    rw [ih (acc ++ [s]) (decide (s = []))
        (fun x hx => hd x (List.mem_cons_of_mem _ hx)) ha.tail hcond]
    have hfirst : acc ++ [s] ++ t = acc ++ s :: t := by simp
    rw [hfirst]
    cases t with
    | nil => simp [normFoldFlag]
    | cons b t' =>
      have hflag : normFoldFlag (b :: t') (decide (s = [])) = normFoldFlag (s :: b :: t') d := by
        unfold normFoldFlag
        rw [List.getLast?_cons_cons]
        rcases hg : (b :: t').getLast? with - | z
        · have hns := (List.getLast?_isSome (l := b :: t')).2 (by simp)
          rw [hg] at hns
          simp at hns
        · rfl
      rw [hflag]

/-- C6: `NormalizePath` is idempotent — applying it twice to any path segment
sequence leaves the same sequence as applying it once. -/
theorem c6_normalize_path_idempotent (p : List (List Char)) :
    NormalizePath (NormalizePath p) = NormalizePath p := by
  obtain ⟨hd, ha⟩ := normalizePath_clean p
  have hfold := normFold_clean (NormalizePath p) [] false hd ha (by simp)
  conv_lhs => rw [NormalizePath]
  rw [hfold]
  simp only [List.nil_append]
  split
  · rename_i hcond
    obtain ⟨hflag, hne, hlast⟩ := hcond
    exfalso
    unfold normFoldFlag at hflag
    rcases hg : (NormalizePath p).getLast? with - | s
    · rw [hg] at hflag
      simp at hflag
    · rw [hg] at hflag
      simp only [decide_eq_true_eq] at hflag
      rw [List.getLastD_eq_getLast?, hg] at hlast
      simp only [Option.getD_some] at hlast
      exact hlast hflag
  · rfl
